import Mathlib

/-!
Shallow embedding of `compile_shaders.py`, a staleness-checking shader build
driver: it enumerates candidate files, derives an output path, compares
modification times and invokes the external compiler `glslc` when the
artifact is stale.

Modelling choices:
* Paths are `String`s; the Python string and path primitives the script uses
  (`str.replace`, `str.endswith`, `os.path.join`, `os.path.dirname`) are
  embedded as executable functions over `List Char` / `String`, following the
  CPython `str` and `posixpath` semantics for the inputs that arise here.
* Modification timestamps (`st_mtime`) are modelled as natural numbers; a
  missing file is `none` (`os.stat` raising `FileNotFoundError`).
* The ambient filesystem and process environment is an `Env`: the list of
  paths returned by `glob.glob`, the mtime of each path, and the exit code
  the external compiler returns for a given command line.
* A run is modelled as the list of side effects (`Event`s) the script
  performs, together with a flag that is `false` exactly when
  `check_returncode` raised `CalledProcessError` and the run halted.
-/

namespace CompileShaders

/-- Boolean test that `pat` is a leading segment of `s`
(Python slice comparison `s[:len(pat)] == pat`). -/
def startsWithList : List Char → List Char → Bool
  | [], _ => true
  | _ :: _, [] => false
  | p :: ps, c :: cs => p == c && startsWithList ps cs

/-- Boolean test that `pat` occurs as a contiguous substring of the second
argument (Python `pat in s`). -/
def occursIn (pat : List Char) : List Char → Bool
  | [] => startsWithList pat []
  | c :: rest => startsWithList pat (c :: rest) || occursIn pat rest

/-- One fuelled scan of Python `str.replace`: at each position, if `pat`
matches there, emit `rep` and skip past the match, otherwise copy one
character. Fuel `s.length` is always sufficient. -/
def replaceGo (pat rep : List Char) : Nat → List Char → List Char
  | _, [] => []
  | 0, s => s
  | fuel + 1, c :: rest =>
    if startsWithList pat (c :: rest) then
      rep ++ replaceGo pat rep fuel (rest.drop (pat.length - 1))
    else
      c :: replaceGo pat rep fuel rest

/-- Python `s.replace(pat, rep)`: replace every non-overlapping occurrence,
scanning left to right. (The script only calls this with the nonempty
pattern `'shaders/src/'`; Python's special case for an empty pattern is not
modelled.) -/
def pyReplace (s pat rep : String) : String :=
  String.mk (replaceGo pat.data rep.data s.data.length s.data)

/-- Python `s.endswith(suffix)`. -/
def pyEndsWith (s suffix : String) : Bool :=
  suffix.data.isSuffixOf s.data

/-- Python `s.startswith(pre)`. -/
def pyStartsWith (s pre : String) : Bool :=
  startsWithList pre.data s.data

/-- `posixpath.join` restricted to two components, as `os.path.join` is used
on line 24: a second component starting with `/` discards the first;
otherwise the components are concatenated, inserting `/` unless the first is
empty or already ends with `/`. -/
def pyJoin (a b : String) : String :=
  if pyStartsWith b "/" then b
  else if a = "" || pyEndsWith a "/" then a ++ b
  else a ++ "/" ++ b

/-- `posixpath.dirname`: everything up to the final `/`, with trailing
slashes stripped unless the result consists only of slashes. -/
def pyDirname (p : String) : String :=
  let cs := p.data
  let cut := cs.length - (cs.reverse.takeWhile (fun c => c != '/')).length
  let head := cs.take cut
  if head.any (fun c => c != '/') then
    String.mk ((head.reverse.dropWhile (fun c => c == '/')).reverse)
  else
    String.mk head

/-- line 18. -/
def base_src_path : String := "shaders/src/"

/-- line 19. -/
def base_dst_path : String := "shaders/spv/"

/-- line 21: the recognized shader source extensions. -/
def recognizedExt (file : String) : Bool :=
  pyEndsWith file ".vert" || pyEndsWith file ".frag"

/-- line 24: `dst_file = '{}.spv'.format(os.path.join(base_dst_path,
file.replace(base_src_path, '')))`. -/
def dst_file (file : String) : String :=
  pyJoin base_dst_path (pyReplace file base_src_path "") ++ ".spv"

/-- line 31: the argument list passed to `subprocess.run` for one file. -/
def cmdFor (file : String) : List String :=
  ["glslc", "-o", dst_file file, file]

/-- The ambient filesystem and process environment of one run. -/
structure Env where
  /-- the paths produced by `glob.glob('shaders/src//**', recursive=True)` -/
  files : List String
  /-- `os.stat(p).st_mtime`; `none` models `FileNotFoundError` -/
  mtime : String → Option Nat
  /-- `subprocess.run(cmd).returncode` -/
  exitCode : List String → Int

/-- lines 9..14: `os.stat` mtime, with `FileNotFoundError` mapped to `0.0`. -/
def get_mtime (env : Env) (fpath : String) : Nat :=
  match env.mtime fpath with
  | some t => t
  | none => 0

/-- An observable side effect of the script. -/
inductive Event where
  | makedirs (dir : String)
  | print (msg : String)
  | invoke (cmd : List String)
deriving DecidableEq

/-- lines 21..32: the handling of a single globbed path. The returned flag is
`false` exactly when the compiler was invoked and `check_returncode`
raised. -/
def processFile (env : Env) (file : String) : List Event × Bool :=
  if recognizedExt file then
    let dst := dst_file file
    if get_mtime env dst > get_mtime env file then
      ([Event.makedirs (pyDirname dst)], true)
    else
      ([Event.makedirs (pyDirname dst),
        Event.print ("Process " ++ file),
        Event.invoke (cmdFor file)],
       env.exitCode (cmdFor file) == 0)
  else ([], true)

/-- The sequential loop of `main` over a list of globbed paths, halting at
the first failed invocation. -/
def runFiles (env : Env) : List String → List Event × Bool
  | [] => ([], true)
  | f :: fs =>
    let r := processFile env f
    if r.2 then
      let rest := runFiles env fs
      (r.1 ++ rest.1, rest.2)
    else
      (r.1, false)

/-- lines 17..32: the whole run of `main()`. -/
def main (env : Env) : List Event × Bool :=
  runFiles env env.files

/-- The number of compiler invocations for `file` in a trace. -/
def invokeCount (file : String) : List Event → Nat
  | [] => 0
  | e :: rest =>
    (if e = Event.invoke (cmdFor file) then 1 else 0) + invokeCount file rest

/-- The final element of a command line (the source path in the invocation
shape used here). -/
def lastArg (cmd : List String) : String :=
  cmd.getLastD ""

/-- A concrete environment: one source file with mtime 5, artifact absent,
compiler succeeds. -/
def envMissing : Env where
  files := ["shaders/src/a.vert"]
  mtime := fun p => if p = "shaders/src/a.vert" then some 5 else none
  exitCode := fun _ => 0

/-- A concrete environment: artifact and source have equal mtimes. -/
def envEqual : Env where
  files := ["shaders/src/a.vert"]
  mtime := fun p =>
    if p = "shaders/src/a.vert" then some 5
    else if p = "shaders/spv/a.vert.spv" then some 5
    else none
  exitCode := fun _ => 0

/-- A concrete environment: artifact strictly newer than the source. -/
def envFresh : Env where
  files := ["shaders/src/a.vert"]
  mtime := fun p =>
    if p = "shaders/src/a.vert" then some 3
    else if p = "shaders/spv/a.vert.spv" then some 7
    else none
  exitCode := fun _ => 0

/-- A concrete environment: three stale sources, the middle compilation
exits with status 1. -/
def envFail : Env where
  files := ["shaders/src/a.vert", "shaders/src/b.frag", "shaders/src/c.vert"]
  mtime := fun p =>
    if p = "shaders/src/a.vert" then some 5
    else if p = "shaders/src/b.frag" then some 5
    else if p = "shaders/src/c.vert" then some 5
    else none
  exitCode := fun cmd => if cmd = cmdFor "shaders/src/b.frag" then 1 else 0

/-! ### Lemmas about the embedded string primitives -/

theorem replaceGo_nil (pat rep : List Char) (fuel : Nat) :
    replaceGo pat rep fuel [] = [] := by
  cases fuel <;> rfl

theorem startsWithList_append_self (pat s : List Char) :
    startsWithList pat (pat ++ s) = true := by
  induction pat with
  | nil => rfl
  | cons p ps ih => simp [startsWithList, ih]

theorem replaceGo_of_occursIn_eq_false (pat rep : List Char) :
    ∀ (fuel : Nat) (s : List Char), occursIn pat s = false →
      replaceGo pat rep fuel s = s := by
  intro fuel
  induction fuel with
  | zero => intro s _; cases s <;> rfl
  | succ f ih =>
    intro s hs
    cases s with
    | nil => rfl
    | cons c rest =>
      simp only [occursIn, Bool.or_eq_false_iff] at hs
      simp only [replaceGo, hs.1, if_neg, Bool.false_eq_true, ite_false]
      rw [ih rest hs.2]

theorem replaceGo_strip (pat rep s : List Char) (fuel : Nat)
    (hpat : pat ≠ []) (hocc : occursIn pat s = false) :
    replaceGo pat rep (fuel + 1) (pat ++ s) = rep ++ s := by
  cases pat with
  | nil => exact absurd rfl hpat
  | cons p ps =>
    have hsw : startsWithList (p :: ps) (p :: (ps ++ s)) = true := by
      have h := startsWithList_append_self (p :: ps) s
      simpa using h
    have hdrop : (ps ++ s).drop ((p :: ps).length - 1) = s := by
      simp [List.drop_left]
    show replaceGo (p :: ps) rep (fuel + 1) (p :: (ps ++ s)) = rep ++ s
    rw [replaceGo, if_pos hsw, hdrop,
      replaceGo_of_occursIn_eq_false (p :: ps) rep fuel s hocc]

theorem pyReplace_strip (pat rel : String)
    (hpat : pat.data ≠ []) (hocc : occursIn pat.data rel.data = false) :
    pyReplace (pat ++ rel) pat "" = rel := by
  show String.mk (replaceGo pat.data [] (pat.data ++ rel.data).length
    (pat.data ++ rel.data)) = rel
  cases hp : pat.data with
  | nil => exact absurd hp hpat
  | cons p ps =>
    have hlen : ((p :: ps) ++ rel.data).length = (ps.length + rel.data.length) + 1 := by
      simp [List.length_append]
    rw [hp] at hocc
    rw [hlen, replaceGo_strip (p :: ps) [] rel.data _ (by simp) hocc]
    rfl

/-! ### Lemmas about the driver -/

theorem invokeCount_append (f : String) (l₁ l₂ : List Event) :
    invokeCount f (l₁ ++ l₂) = invokeCount f l₁ + invokeCount f l₂ := by
  induction l₁ with
  | nil => simp [invokeCount]
  | cons e rest ih => simp [invokeCount, ih]; omega

theorem cmdFor_inj {g f : String} (h : cmdFor g = cmdFor f) : g = f := by
  simp [cmdFor] at h
  exact h.2

theorem processFile_skip (env : Env) (f : String)
    (hext : recognizedExt f = true)
    (hnewer : get_mtime env (dst_file f) > get_mtime env f) :
    processFile env f = ([Event.makedirs (pyDirname (dst_file f))], true) := by
  simp [processFile, hext, hnewer]

theorem processFile_compile (env : Env) (f : String)
    (hext : recognizedExt f = true)
    (hstale : ¬ get_mtime env (dst_file f) > get_mtime env f) :
    processFile env f =
      ([Event.makedirs (pyDirname (dst_file f)),
        Event.print ("Process " ++ f),
        Event.invoke (cmdFor f)],
       env.exitCode (cmdFor f) == 0) := by
  simp [processFile, hext, hstale]

theorem processFile_unrecognized (env : Env) (f : String)
    (hext : recognizedExt f = false) :
    processFile env f = ([], true) := by
  simp [processFile, hext]

theorem invokeCount_processFile_of_ne (env : Env) {f g : String} (hne : g ≠ f) :
    invokeCount f (processFile env g).1 = 0 := by
  have hcmd : ¬ (Event.invoke (cmdFor g) = Event.invoke (cmdFor f)) := by
    intro h
    exact hne (cmdFor_inj (by injection h))
  by_cases hext : recognizedExt g = true
  · by_cases hnewer : get_mtime env (dst_file g) > get_mtime env g
    · rw [processFile_skip env g hext hnewer]; simp [invokeCount]
    · rw [processFile_compile env g hext hnewer]; simp [invokeCount, hcmd]
  · rw [processFile_unrecognized env g (by simpa using hext)]; simp [invokeCount]

theorem invokeCount_processFile_skip (env : Env) (f : String)
    (hext : recognizedExt f = true)
    (hnewer : get_mtime env (dst_file f) > get_mtime env f) :
    invokeCount f (processFile env f).1 = 0 := by
  rw [processFile_skip env f hext hnewer]
  simp [invokeCount]

theorem invokeCount_processFile_compile (env : Env) (f : String)
    (hext : recognizedExt f = true)
    (hstale : ¬ get_mtime env (dst_file f) > get_mtime env f) :
    invokeCount f (processFile env f).1 = 1 := by
  rw [processFile_compile env f hext hstale]
  simp [invokeCount]

theorem invokeCount_runFiles_of_not_mem (env : Env) (f : String) :
    ∀ l : List String, f ∉ l → invokeCount f (runFiles env l).1 = 0 := by
  intro l
  induction l with
  | nil => intro _; simp [runFiles, invokeCount]
  | cons g gs ih =>
    intro hmem
    have hg : g ≠ f := fun h => hmem (h ▸ List.mem_cons_self g gs)
    have hgs : f ∉ gs := fun h => hmem (List.mem_cons_of_mem g h)
    simp only [runFiles]
    split
    · rw [invokeCount_append]
      rw [invokeCount_processFile_of_ne env hg, ih hgs]
    · exact invokeCount_processFile_of_ne env hg

theorem runFiles_cons (env : Env) (f : String) (fs : List String) :
    runFiles env (f :: fs) =
      if (processFile env f).2 then
        ((processFile env f).1 ++ (runFiles env fs).1, (runFiles env fs).2)
      else ((processFile env f).1, false) := rfl

/-! ### The claims -/

/-- C1 (counterexample): with artifact and source timestamps both equal to 5,
the artifact is neither absent nor strictly older than the source, yet the
compiler is invoked for the file, so invocation is not equivalent to
"absent or strictly older". -/
theorem c1_counterexample :
    ¬ (envEqual.mtime (dst_file "shaders/src/a.vert") = none ∨
        get_mtime envEqual (dst_file "shaders/src/a.vert") <
          get_mtime envEqual "shaders/src/a.vert") ∧
      0 < invokeCount "shaders/src/a.vert" (main envEqual).1 := by
  decide

/-- C1 (amended): for a recognized source file, the compiler is invoked for
it if and only if the artifact is absent or its modification timestamp is
less than or equal to the source's, i.e. whenever the artifact is not
strictly newer (a missing file having timestamp zero). -/
theorem c1_invoked_iff_not_strictly_newer (env : Env) (f : String)
    (hext : recognizedExt f = true) :
    0 < invokeCount f (processFile env f).1 ↔
      (env.mtime (dst_file f) = none ∨
        get_mtime env (dst_file f) ≤ get_mtime env f) := by
  constructor
  · intro hinv
    by_cases hnewer : get_mtime env (dst_file f) > get_mtime env f
    · rw [invokeCount_processFile_skip env f hext hnewer] at hinv
      exact absurd hinv (by omega)
    · exact Or.inr (Nat.le_of_not_lt hnewer)
  · intro hc
    have hstale : ¬ get_mtime env (dst_file f) > get_mtime env f := by
      cases hc with
      | inl h => simp [get_mtime, h]
      | inr h => omega
    rw [invokeCount_processFile_compile env f hext hstale]
    omega

/-- C1 (witness): at a concrete environment whose artifact is absent, the
compiler is invoked. -/
theorem c1_witness :
    0 < invokeCount "shaders/src/a.vert"
      (processFile envMissing "shaders/src/a.vert").1 :=
  (c1_invoked_iff_not_strictly_newer envMissing "shaders/src/a.vert"
    (by decide)).mpr (Or.inl (by decide))

/-- C2 (confirmed): if the artifact's modification timestamp is strictly
greater than the source's, no compiler invocation for that file occurs
anywhere in the run. -/
theorem c2_newer_artifact_not_invoked (env : Env) (f : String)
    (hext : recognizedExt f = true)
    (hnewer : get_mtime env (dst_file f) > get_mtime env f) :
    invokeCount f (main env).1 = 0 := by
  have key : ∀ l : List String, invokeCount f (runFiles env l).1 = 0 := by
    intro l
    induction l with
    | nil => simp [runFiles, invokeCount]
    | cons g gs ih =>
      have hg : invokeCount f (processFile env g).1 = 0 := by
        by_cases hgf : g = f
        · subst hgf; exact invokeCount_processFile_skip env g hext hnewer
        · exact invokeCount_processFile_of_ne env hgf
      rw [runFiles_cons]
      by_cases hr : (processFile env g).2 = true
      · rw [if_pos hr]
        show invokeCount f ((processFile env g).1 ++ (runFiles env gs).1) = 0
        rw [invokeCount_append, hg, ih]
      · rw [if_neg hr]
        exact hg
  exact key env.files

/-- C2 (witness): at a concrete environment whose artifact (mtime 7) is
newer than the source (mtime 3), the run contains no invocation for the
file. -/
theorem c2_witness :
    invokeCount "shaders/src/a.vert" (main envFresh).1 = 0 :=
  c2_newer_artifact_not_invoked envFresh "shaders/src/a.vert"
    (by decide) (by decide)

/-- C6 (confirmed): a missing file is not an error: `get_mtime` returns 0
for it, and consequently a missing artifact never satisfies the skip
comparison against any source, i.e. it is always classified as stale. -/
theorem c6_missing_mtime_zero (env : Env) (p : String)
    (h : env.mtime p = none) :
    get_mtime env p = 0 ∧
      ∀ src : String, ¬ get_mtime env p > get_mtime env src := by
  have h0 : get_mtime env p = 0 := by simp [get_mtime, h]
  exact ⟨h0, fun src => by simp [h0]⟩

/-- C6 (witness): at a concrete environment, the absent artifact has
`get_mtime` 0 and is stale relative to the concrete source. -/
theorem c6_witness :
    get_mtime envMissing "shaders/spv/a.vert.spv" = 0 ∧
      ¬ get_mtime envMissing "shaders/spv/a.vert.spv" >
          get_mtime envMissing "shaders/src/a.vert" :=
  ⟨(c6_missing_mtime_zero envMissing "shaders/spv/a.vert.spv" (by decide)).1,
   (c6_missing_mtime_zero envMissing "shaders/spv/a.vert.spv" (by decide)).2
     "shaders/src/a.vert"⟩

/-- C8 (confirmed): a globbed path ending in neither `.vert` nor `.frag`
produces no events at all — no directory creation, no output, no
invocation — and cannot fail. -/
theorem c8_unrecognized_no_action (env : Env) (f : String)
    (h : ¬ (pyEndsWith f ".vert" = true ∨ pyEndsWith f ".frag" = true)) :
    processFile env f = ([], true) := by
  have h1 : pyEndsWith f ".vert" = false := by
    cases hv : pyEndsWith f ".vert" with
    | false => rfl
    | true => exact absurd (Or.inl hv) h
  have h2 : pyEndsWith f ".frag" = false := by
    cases hv : pyEndsWith f ".frag" with
    | false => rfl
    | true => exact absurd (Or.inr hv) h
  exact processFile_unrecognized env f (by simp [recognizedExt, h1, h2])

/-- C8 (witness): a text file under the source root is left entirely
alone. -/
theorem c8_witness :
    processFile envMissing "shaders/src/notes.txt" = ([], true) :=
  c8_unrecognized_no_action envMissing "shaders/src/notes.txt" (by decide)

/-- C9 (confirmed): for every recognized source file the first event is the
creation of the artifact's parent directory, so it precedes the staleness
decision; in particular, when the artifact is strictly newer and the
compiler is not invoked, the directory creation is still the only event. -/
theorem c9_makedirs_before_staleness_check (env : Env) (f : String)
    (hext : recognizedExt f = true) :
    (processFile env f).1.head? =
        some (Event.makedirs (pyDirname (dst_file f))) ∧
      (get_mtime env (dst_file f) > get_mtime env f →
        processFile env f =
          ([Event.makedirs (pyDirname (dst_file f))], true)) := by
  constructor
  · by_cases hnewer : get_mtime env (dst_file f) > get_mtime env f
    · rw [processFile_skip env f hext hnewer]; rfl
    · rw [processFile_compile env f hext hnewer]; rfl
  · intro hnewer
    exact processFile_skip env f hext hnewer

/-- C9 (witness): at a concrete environment with an up-to-date artifact, the
directory creation still happens and is the only event. -/
theorem c9_witness :
    (processFile envFresh "shaders/src/a.vert").1.head? =
        some (Event.makedirs (pyDirname (dst_file "shaders/src/a.vert"))) ∧
      processFile envFresh "shaders/src/a.vert" =
        ([Event.makedirs (pyDirname (dst_file "shaders/src/a.vert"))], true) :=
  ⟨(c9_makedirs_before_staleness_check envFresh "shaders/src/a.vert"
      (by decide)).1,
   (c9_makedirs_before_staleness_check envFresh "shaders/src/a.vert"
      (by decide)).2 (by decide)⟩

/-- C10 (confirmed): when artifact and source modification timestamps are
exactly equal, the skip condition (which requires the artifact to be
strictly newer) fails and the compiler is invoked. -/
theorem c10_equal_timestamps_invoked (env : Env) (f : String)
    (hext : recognizedExt f = true)
    (heq : get_mtime env (dst_file f) = get_mtime env f) :
    0 < invokeCount f (processFile env f).1 := by
  have hstale : ¬ get_mtime env (dst_file f) > get_mtime env f := by omega
  rw [invokeCount_processFile_compile env f hext hstale]
  omega

/-- C10 (witness): with both timestamps equal to 5 the compiler is
invoked. -/
theorem c10_witness :
    0 < invokeCount "shaders/src/a.vert"
      (processFile envEqual "shaders/src/a.vert").1 :=
  c10_equal_timestamps_invoked envEqual "shaders/src/a.vert"
    (by decide) (by decide)

/-- C3 (confirmed): in a run that completes, a recognized source file that
occurs exactly once among the globbed paths and whose artifact does not
exist is compiled exactly once. -/
theorem c3_missing_artifact_invoked_once (env : Env) (f : String)
    (hcount : env.files.count f = 1)
    (hext : recognizedExt f = true)
    (hmiss : env.mtime (dst_file f) = none)
    (hok : (main env).2 = true) :
    invokeCount f (main env).1 = 1 := by
  have hstale : ¬ get_mtime env (dst_file f) > get_mtime env f := by
    simp [get_mtime, hmiss]
  have key : ∀ l : List String, l.count f = 1 → (runFiles env l).2 = true →
      invokeCount f (runFiles env l).1 = 1 := by
    intro l
    induction l with
    | nil => intro h _; simp at h
    | cons g gs ih =>
      intro hc hok2
      rw [runFiles_cons] at hok2 ⊢
      by_cases hgf : g = f
      · subst hgf
        have hcgs : gs.count g = 0 := by
          rw [List.count_cons] at hc
          simp at hc
          omega
        have hgs : g ∉ gs := List.count_eq_zero.mp hcgs
        by_cases hr : (processFile env g).2 = true
        · rw [if_pos hr] at hok2 ⊢
          show invokeCount g ((processFile env g).1 ++ (runFiles env gs).1) = 1
          rw [invokeCount_append,
            invokeCount_processFile_compile env g hext hstale,
            invokeCount_runFiles_of_not_mem env g gs hgs]
        · rw [if_neg hr] at hok2
          simp at hok2
      · have hc2 : gs.count f = 1 := by
          rw [List.count_cons] at hc
          have hbeq : (g == f) = false := by simp [hgf]
          rw [hbeq] at hc
          simpa using hc
        by_cases hr : (processFile env g).2 = true
        · rw [if_pos hr] at hok2 ⊢
          have hok3 : (runFiles env gs).2 = true := hok2
          show invokeCount f ((processFile env g).1 ++ (runFiles env gs).1) = 1
          rw [invokeCount_append, invokeCount_processFile_of_ne env hgf,
            ih hc2 hok3]
        · rw [if_neg hr] at hok2
          simp at hok2
  exact key env.files hcount hok

/-- C3 (witness): at a concrete environment with one source, no artifact and
a clean compile, the run succeeds with exactly one invocation. -/
theorem c3_witness :
    invokeCount "shaders/src/a.vert" (main envMissing).1 = 1 :=
  c3_missing_artifact_invoked_once envMissing "shaders/src/a.vert"
    (by decide) (by decide) (by decide) (by decide)

/-- C4 (confirmed): if the compiler exits non-zero on a stale recognized
file, and every earlier globbed path was processed without failure, the run
halts there: the trace is exactly the earlier paths' events followed by this
file's events (so no later path is processed), the failure flag is
propagated, and the failing file is invoked exactly once (no retry). -/
theorem c4_nonzero_exit_halts (env : Env) (fs₁ fs₂ : List String) (f : String)
    (hpre : ∀ g ∈ fs₁, (processFile env g).2 = true)
    (hext : recognizedExt f = true)
    (hstale : ¬ get_mtime env (dst_file f) > get_mtime env f)
    (hfail : env.exitCode (cmdFor f) ≠ 0) :
    runFiles env (fs₁ ++ f :: fs₂) =
        ((runFiles env fs₁).1 ++ (processFile env f).1, false) ∧
      invokeCount f (processFile env f).1 = 1 := by
  have hpf2 : (processFile env f).2 = false := by
    rw [processFile_compile env f hext hstale]
    show (env.exitCode (cmdFor f) == 0) = false
    cases h0 : env.exitCode (cmdFor f) == 0 with
    | false => rfl
    | true => exact absurd (eq_of_beq h0) hfail
  refine ⟨?_, invokeCount_processFile_compile env f hext hstale⟩
  induction fs₁ with
  | nil =>
    rw [List.nil_append, runFiles_cons, if_neg (by simp [hpf2])]
    simp [runFiles]
  | cons g gs ih =>
    have hg : (processFile env g).2 = true := hpre g (List.mem_cons_self g gs)
    have hgs : ∀ x ∈ gs, (processFile env x).2 = true :=
      fun x hx => hpre x (List.mem_cons_of_mem g hx)
    have hrhs : (runFiles env (g :: gs)).1 =
        (processFile env g).1 ++ (runFiles env gs).1 := by
      rw [runFiles_cons, if_pos hg]
    rw [List.cons_append, runFiles_cons, if_pos hg, ih hgs, hrhs]
    simp [List.append_assoc]

/-- C4 (witness): in the concrete three-file environment whose middle
compilation fails, the run halts after the second file with one invocation
of it. -/
theorem c4_witness :
    runFiles envFail
        (["shaders/src/a.vert"] ++ "shaders/src/b.frag" :: ["shaders/src/c.vert"]) =
        ((runFiles envFail ["shaders/src/a.vert"]).1 ++
          (processFile envFail "shaders/src/b.frag").1, false) ∧
      invokeCount "shaders/src/b.frag"
        (processFile envFail "shaders/src/b.frag").1 = 1 :=
  c4_nonzero_exit_halts envFail ["shaders/src/a.vert"] ["shaders/src/c.vert"]
    "shaders/src/b.frag" (by decide) (by decide) (by decide) (by decide)

/-- C5 (counterexample): the path `shaders/src/shaders/src/a.vert` (a
discoverable source whose relative path is `shaders/src/a.vert`) derives the
artifact `shaders/spv/a.vert.spv`, because `str.replace` removes *both*
occurrences of the source root; this does not mirror the relative path under
the output root. -/
theorem c5_counterexample :
    dst_file (base_src_path ++ "shaders/src/a.vert") = "shaders/spv/a.vert.spv" ∧
      dst_file (base_src_path ++ "shaders/src/a.vert") ≠
        base_dst_path ++ "shaders/src/a.vert" ++ ".spv" := by
  decide

/-- C5 (amended): the artifact path is the value of the function `dst_file`
(hence at most one per source and deterministically derived, by removing
every occurrence of the source-root substring and appending `.spv`); for
every source whose relative path neither contains the source-root substring
nor begins with `/`, it mirrors the relative path under the output root. -/
theorem c5_artifact_path_mirrors (rel : String)
    (hocc : occursIn base_src_path.data rel.data = false)
    (hsl : pyStartsWith rel "/" = false) :
    dst_file (base_src_path ++ rel) = base_dst_path ++ rel ++ ".spv" := by
  have hrepl : pyReplace (base_src_path ++ rel) base_src_path "" = rel :=
    pyReplace_strip base_src_path rel (by decide) hocc
  show pyJoin base_dst_path
    (pyReplace (base_src_path ++ rel) base_src_path "") ++ ".spv" = _
  rw [hrepl]
  show (if pyStartsWith rel "/" then rel
    else if base_dst_path = "" || pyEndsWith base_dst_path "/"
      then base_dst_path ++ rel
    else base_dst_path ++ "/" ++ rel) ++ ".spv" = _
  rw [if_neg (by simp [hsl]), if_pos (by decide)]

/-- C5 (witness): an ordinary nested relative path mirrors under the output
root. -/
theorem c5_witness :
    dst_file (base_src_path ++ "sub/a.vert") =
      base_dst_path ++ "sub/a.vert" ++ ".spv" :=
  c5_artifact_path_mirrors "sub/a.vert" (by decide) (by decide)

/-- C7 (confirmed): the driver's directory convention is fixed to
`shaders/src/` and `shaders/spv/`, and every invocation occurring in any
run is for some recognized globbed source `src` and has exactly the argument
form `glslc -o <dst> <src>`: the derived destination directly follows `-o`
and precedes the source. -/
theorem c7_invocation_shape (env : Env) (cmd : List String)
    (h : Event.invoke cmd ∈ (main env).1) :
    base_src_path = "shaders/src/" ∧ base_dst_path = "shaders/spv/" ∧
      lastArg cmd ∈ env.files ∧ recognizedExt (lastArg cmd) = true ∧
      cmd = ["glslc", "-o", dst_file (lastArg cmd), lastArg cmd] := by
  refine ⟨rfl, rfl, ?_⟩
  have key : ∀ l : List String, Event.invoke cmd ∈ (runFiles env l).1 →
      lastArg cmd ∈ l ∧ recognizedExt (lastArg cmd) = true ∧
        cmd = ["glslc", "-o", dst_file (lastArg cmd), lastArg cmd] := by
    intro l
    induction l with
    | nil => intro hmem; simp [runFiles] at hmem
    | cons g gs ih =>
      intro hmem
      rw [runFiles_cons] at hmem
      have hsplit : Event.invoke cmd ∈ (processFile env g).1 ∨
          Event.invoke cmd ∈ (runFiles env gs).1 := by
        by_cases hr : (processFile env g).2 = true
        · rw [if_pos hr] at hmem
          exact List.mem_append.mp (by simpa using hmem)
        · rw [if_neg hr] at hmem
          exact Or.inl (by simpa using hmem)
      cases hsplit with
      | inl hin =>
        by_cases hext : recognizedExt g = true
        · by_cases hnewer : get_mtime env (dst_file g) > get_mtime env g
          · rw [processFile_skip env g hext hnewer] at hin
            simp at hin
          · rw [processFile_compile env g hext hnewer] at hin
            simp at hin
            have hlast : lastArg cmd = g := by
              rw [hin]
              rfl
            rw [hlast]
            exact ⟨List.mem_cons_self g gs, hext, by rw [hin]; rfl⟩
        · rw [processFile_unrecognized env g (by simpa using hext)] at hin
          simp at hin
      | inr hin =>
        obtain ⟨hm, hrec, hcmd⟩ := ih hin
        exact ⟨List.mem_cons_of_mem g hm, hrec, hcmd⟩
  exact key env.files h

/-- C7 (witness): the invocation occurring in the concrete run has the
stated shape. -/
theorem c7_witness :
    base_src_path = "shaders/src/" ∧ base_dst_path = "shaders/spv/" ∧
      lastArg (cmdFor "shaders/src/a.vert") ∈ envMissing.files ∧
      recognizedExt (lastArg (cmdFor "shaders/src/a.vert")) = true ∧
      cmdFor "shaders/src/a.vert" =
        ["glslc", "-o", dst_file (lastArg (cmdFor "shaders/src/a.vert")),
          lastArg (cmdFor "shaders/src/a.vert")] :=
  c7_invocation_shape envMissing (cmdFor "shaders/src/a.vert") (by decide)

end CompileShaders
